import Mathlib

/-!
# nanobox: the session lock and the VM lifecycle of `commands.go`

A shallow embedding of `bootVM` and `saveVM` (src/commands/commands.go).
Both functions are straight-line code over three pieces of state: the
persisted VM descriptor (`config.VMfile`), the package-level lock connection
(`config.Lock`) and the control server on the other end of that connection.
Every call that leaves the function (the driver, the network, the terminal)
is recorded as an `Event`, in program order, so that statements about which
actions a run performs, how often and in which order are statements about a
list.
-/

namespace Nanobox

/-! ## Data model -/

/-- Modelled from the spec: the persisted VM descriptor behind `config.VMfile`, a
record of the last status, the VM identifier, the run mode and the suspendable
flag. Its declaration is not among the sources; the fields are the ones the
setters and getters used by `bootVM` and `saveVM` touch. -/
structure VMfile where
  status : String
  uuid : String
  mode : String
  suspendable : Bool
deriving DecidableEq, Repr

/-- Modelled from the spec: `config.VMfile.StatusIs(s)` persists the status. -/
def VMfile.StatusIs (f : VMfile) (s : String) : VMfile := { f with status := s }

/-- Modelled from the spec: `config.VMfile.UUIDIs(s)` persists the identifier. -/
def VMfile.UUIDIs (f : VMfile) (s : String) : VMfile := { f with uuid := s }

/-- Modelled from the spec: `config.VMfile.ModeIs(m)` persists the mode. -/
def VMfile.ModeIs (f : VMfile) (m : String) : VMfile := { f with mode := m }

/-- Modelled from the spec: `config.VMfile.SuspendableIs(b)` persists the flag. -/
def VMfile.SuspendableIs (f : VMfile) (b : Bool) : VMfile := { f with suspendable := b }

/-- Modelled from the spec: `config.VMfile.IsMode(m)` compares the stored mode. -/
def VMfile.IsMode (f : VMfile) (m : String) : Bool := f.mode == m

/-- Modelled from the spec: `config.VMfile.IsSuspendable()` reads the stored flag. -/
def VMfile.IsSuspendable (f : VMfile) : Bool := f.suspendable

/-- A lock connection (`net.Conn`), named by the order in which it was dialled. -/
abbrev Conn := Nat

/-- Modelled from the spec: the control server's bookkeeping. One TCP connection
held open is one active session, so the state is the collection of open lock
connections; `next` names the connection the next successful dial creates. -/
structure Server where
  conns : List Conn
  next : Conn
deriving DecidableEq, Repr

/-- The control server's active-session count: the number of open lock connections. -/
def Server.count (s : Server) : Nat := s.conns.length

/-- A successful `net.Dial`: a new connection is open at the server. -/
def Server.accept (s : Server) : Server := { conns := s.next :: s.conns, next := s.next + 1 }

/-- The effect of `conn.Close()` at the server: the connection is no longer open.
Closing a connection that is not open changes nothing (the error `Close`
returns is dropped by the caller). -/
def Server.drop (s : Server) (c : Conn) : Server := { s with conns := s.conns.erase c }

/-- The calls through which `bootVM` and `saveVM` act on the outside world, one
constructor per call site. -/
inductive Event where
  | boxInstall
  | nanoInit
  | vagrantStatus
  | noteAlreadyRunning
  | noteUnknownState
  | nanoResume
  | nanoCreate
  | nanoReload
  | dial
  | lockWrite (c : Conn)
  | setLock (c : Conn)
  | statusIs (s : String)
  | vagrantUUID
  | uuidIs (s : String)
  | modeIs (m : String)
  | lockClose (c : Conn)
  | sleep
  | noteBackground
  | newRequest
  | putSuspend
  | suspendableIs (b : Bool)
  | noteNotSuspended
  | nanoboxDown
  | bodyClose
  | fatal (msg : String)
deriving DecidableEq, Repr

/-- The state one CLI process works on: the descriptor on disk, its own
`config.Lock` (`none` is Go's nil) and the control server. -/
structure World where
  vmfile : VMfile
  lock : Option Conn
  server : Server
deriving DecidableEq, Repr

/-- One execution of a function: the state it leaves, the events it issued in
program order, and whether the process was ended by a fatal error. -/
structure Run where
  world : World
  events : List Event
  fatal : Bool
deriving DecidableEq, Repr

/-- The start of an execution. -/
def Run.start (w : World) : Run := { world := w, events := [], fatal := false }

/-- Record one call. -/
def Run.emit (r : Run) (e : Event) : Run := { r with events := r.events ++ [e] }

/-- Modelled from the spec: `config.Fatal(msg, ...)`, whose body is not among the sources,
reports the failing call and ends the process; a fatal error is surfaced at once and
nothing after it runs. -/
def Run.Fatal (r : Run) (msg : String) : Run :=
  { r with events := r.events ++ [Event.fatal msg], fatal := true }

/-- Modelled from the spec: a call to a command of this repository whose body is
not among the sources (`boxInstall`, `nanoInit`, `nanoResume`, `nanoCreate`,
`nanoReload`, `nanoboxDown`). It is a blocking call to the external tool that
holds no in-process state; it either returns (`ok`) or ends the process with a
fatal error. -/
def Run.call (r : Run) (e : Event) (ok : Bool) : Run :=
  { r with events := r.events ++ [e], fatal := !ok }

/-- The descriptor write `config.VMfile.StatusIs(s)`. -/
def Run.StatusIs (r : Run) (s : String) : Run :=
  { r with world := { r.world with vmfile := r.world.vmfile.StatusIs s },
           events := r.events ++ [Event.statusIs s] }

/-- The descriptor write `config.VMfile.UUIDIs(s)`. -/
def Run.UUIDIs (r : Run) (s : String) : Run :=
  { r with world := { r.world with vmfile := r.world.vmfile.UUIDIs s },
           events := r.events ++ [Event.uuidIs s] }

/-- The descriptor write `config.VMfile.ModeIs(m)`. -/
def Run.ModeIs (r : Run) (m : String) : Run :=
  { r with world := { r.world with vmfile := r.world.vmfile.ModeIs m },
           events := r.events ++ [Event.modeIs m] }

/-- The descriptor write `config.VMfile.SuspendableIs(b)`. -/
def Run.SuspendableIs (r : Run) (b : Bool) : Run :=
  { r with world := { r.world with vmfile := r.world.vmfile.SuspendableIs b },
           events := r.events ++ [Event.suspendableIs b] }

/-- The assignment `config.Lock = conn`. -/
def Run.setLock (r : Run) (c : Conn) : Run :=
  { r with world := { r.world with lock := some c },
           events := r.events ++ [Event.setLock c] }

/-- The call `net.Dial("tcp", config.ServerURI)`: on success the server has one
more open connection, which is returned; on failure there is no connection. -/
def Run.Dial (r : Run) (ok : Bool) : Run × Option Conn :=
  if ok then
    ({ r with world := { r.world with server := r.world.server.accept },
              events := r.events ++ [Event.dial] }, some r.world.server.next)
  else
    (r.emit Event.dial, none)

/-- The call `config.Lock.Close()`. -/
def Run.Close (r : Run) (c : Conn) : Run :=
  { r with world := { r.world with server := r.world.server.drop c },
           events := r.events ++ [Event.lockClose c] }

/-! ## bootVM -/

/-- What one call of `bootVM` reads from outside the function: the `--background`
flag, the answers of the driver and whether each call that can fail does. -/
structure BootEnv where
  fBackground : Bool
  boxInstallOk : Bool
  nanoInitOk : Bool
  status : String
  actionOk : Bool
  dialOk : Bool
  uuid : String
deriving DecidableEq, Repr

/-- The function `bootVM` of commands.go. -/
def bootVM (env : BootEnv) (w : World) : Run :=
  -- check to see if a box needs to be installed
  let r := (Run.start w).call Event.boxInstall env.boxInstallOk
  if r.fatal then r else
  -- ensure a Vagrantfile is available before attempting to boot the VM
  let r := r.call Event.nanoInit env.nanoInitOk
  if r.fatal then r else
  -- get the status to know what needs to happen with the VM
  let status := env.status
  let r := r.emit Event.vagrantStatus
  let r :=
    match status with
    | "running" => r.emit Event.noteAlreadyRunning
    | "saved" => r.call Event.nanoResume env.actionOk
    | "not created" => r.call Event.nanoCreate env.actionOk
    | _ => (r.emit Event.noteUnknownState).call Event.nanoReload env.actionOk
  if r.fatal then r else
  -- open a lock with the server; the connection is NOT closed here
  match r.Dial env.dialOk with
  | (r, none) => r.Fatal "[commands/commands] new.Dial() failed"
  | (r, some conn) =>
    let r := r.emit (Event.lockWrite conn)
    let r := r.setLock conn
    -- after the VM is running updated the .vmfile
    let r := r.StatusIs status
    let r := (r.emit Event.vagrantUUID).UUIDIs env.uuid
    if env.fBackground then r.ModeIs "background" else r

/-! ## saveVM -/

/-- What one call of `saveVM` reads from outside the function: whether the request
could be built, the answer to `PUT /suspend` (`none`: the request failed,
`some code`: the status code of the response) and whether the suspend action
returns. -/
structure SaveEnv where
  newRequestOk : Bool
  response : Option Int
  downOk : Bool
deriving DecidableEq, Repr

/-- The function `saveVM` of commands.go. The deferred `res.Body.Close()` runs when
the function returns, not when the process is ended by a fatal error. -/
def saveVM (env : SaveEnv) (w : World) : Run :=
  let r := Run.start w
  -- close the connection to the server
  let r :=
    match r.world.lock with
    | some c => r.Close c
    | none => r
  let r := r.emit Event.sleep
  -- if the CLI is running in background mode dont suspend the VM
  if r.world.vmfile.IsMode "background" then r.emit Event.noteBackground else
  -- check to see if the VM is able to be suspended
  let r := r.emit Event.newRequest
  if !env.newRequestOk then r.Fatal "[commands/commands] http.NewRequest() failed" else
  let r := r.emit Event.putSuspend
  match env.response with
  | none => r.Fatal "[commands/commands] http.DefaultClient.Do() failed"
  | some code =>
    let r := if Int.tdiv code 100 = 2 then r.SuspendableIs true else r.SuspendableIs false
    if !r.world.vmfile.IsSuspendable then
      (r.emit Event.noteNotSuspended).emit Event.bodyClose
    else
      let r := r.call Event.nanoboxDown env.downOk
      if r.fatal then r else r.emit Event.bodyClose

/-! ## Observations on a run -/

/-- The corrective actions of the driver. -/
def Event.isCorrective : Event → Bool
  | Event.nanoResume => true
  | Event.nanoCreate => true
  | Event.nanoReload => true
  | _ => false

/-- The corrective actions a run performed, in order. -/
def Run.actions (r : Run) : List Event := r.events.filter Event.isCorrective

/-- How often a run invoked the VM suspend action. -/
def Run.suspends (r : Run) : Nat := r.events.count Event.nanoboxDown

/-- The writes of the descriptor's mode. -/
def Event.isModeWrite : Event → Bool
  | Event.modeIs _ => true
  | _ => false

/-- The steps of the lock acquisition: the dial, the registration request written on the
connection and the assignment to `config.Lock`. -/
def Event.isLockAcquire : Event → Bool
  | Event.dial => true
  | Event.lockWrite _ => true
  | Event.setLock _ => true
  | _ => false

/-- The writes of the descriptor that `bootVM` makes. -/
def Event.isDescriptorWrite : Event → Bool
  | Event.statusIs _ => true
  | Event.uuidIs _ => true
  | Event.modeIs _ => true
  | _ => false

/-- The release of the lock. -/
def Event.isLockRelease : Event → Bool
  | Event.lockClose _ => true
  | _ => false

/-- The suspend-readiness request. -/
def Event.isSuspendCheck : Event → Bool
  | Event.putSuspend => true
  | _ => false

/-- The VM suspend action. -/
def Event.isSuspend : Event → Bool
  | Event.nanoboxDown => true
  | _ => false

/-- In the list `l`, every event of kind `p` stands at an earlier position than every
event of kind `q`. -/
def Precedes (p q : Event → Bool) (l : List Event) : Prop :=
  ∀ (i j : Nat) (a b : Event), l[i]? = some a → l[j]? = some b →
    p a = true → q b = true → i < j

/-- A check of `Precedes` by one pass over the list: once an event of kind `q` is met, it
and everything after it is not of kind `p`. -/
def precedesB (p q : Event → Bool) : List Event → Bool
  | [] => true
  | e :: l => (!(q e) || (!(p e) && l.all (fun x => !(p x)))) && precedesB p q l

/-! ## Several sessions against one control server -/

/-- Where the CLI process of a session stands: not yet in `bootVM`, between `bootVM` and
`saveVM`, or gone. -/
inductive Phase where
  | fresh
  | running
  | exited
deriving DecidableEq, Repr

/-- Independent sessions (one OS process each, named by a number) sharing the descriptor
on disk and the control server. `config.Lock` is a package-level variable, so each
process has its own. -/
structure Sys where
  vmfile : VMfile
  server : Server
  lock : Nat → Option Conn
  phase : Nat → Phase

/-- No session has started; a new process finds `config.Lock` nil. -/
def Sys.init (vm : VMfile) (srv : Server) : Sys :=
  { vmfile := vm, server := srv, lock := fun _ => none, phase := fun _ => Phase.fresh }

/-- One step of an interleaving: a session runs its `bootVM` or its `saveVM`. -/
inductive Step where
  | boot (s : Nat) (env : BootEnv)
  | save (s : Nat) (env : SaveEnv)
deriving DecidableEq, Repr

/-- Run one step. A session runs `bootVM` once, as its first step; a fatal error there
ends the process. It runs `saveVM` once, after its `bootVM` has returned. A step that does
not fit this order is not an interleaving of acquire/release pairs (`none`). -/
def Sys.step (σ : Sys) : Step → Option Sys
  | Step.boot s env =>
    if σ.phase s = Phase.fresh then
      let r := bootVM env { vmfile := σ.vmfile, lock := σ.lock s, server := σ.server }
      some { vmfile := r.world.vmfile, server := r.world.server,
             lock := Function.update σ.lock s r.world.lock,
             phase := Function.update σ.phase s (if r.fatal then Phase.exited else Phase.running) }
    else none
  | Step.save s env =>
    if σ.phase s = Phase.running then
      let r := saveVM env { vmfile := σ.vmfile, lock := σ.lock s, server := σ.server }
      some { vmfile := r.world.vmfile, server := r.world.server,
             lock := Function.update σ.lock s r.world.lock,
             phase := Function.update σ.phase s Phase.exited }
    else none

/-- Run an interleaving, step by step. -/
def Sys.run (σ : Sys) : List Step → Option Sys
  | [] => some σ
  | st :: rest => (σ.step st).bind (fun σ2 => Sys.run σ2 rest)

/-- The bookkeeping invariant of an interleaving that started with the connections `base`
open: the open connections are `base` together with one connection per session that is
between its `bootVM` and its `saveVM`, the one stored in that session's `config.Lock`. -/
def Sys.Inv (base : List Conn) (σ : Sys) : Prop :=
  ∃ R : List Nat, R.Nodup ∧ (∀ s, s ∈ R ↔ σ.phase s = Phase.running) ∧
    (∀ s ∈ R, ∃ c, σ.lock s = some c) ∧
    σ.server.conns.Perm (R.filterMap σ.lock ++ base)

/-! ## Theorems -/

/-- C2. When the driver reports `running`, `bootVM` performs no corrective action:
none of Resume, Create or Reload is invoked. -/
theorem bootVM_running_no_corrective_action (env : BootEnv) (w : World)
    (h : env.status = "running") : (bootVM env w).actions = [] := by
  obtain ⟨bg, bi, ni, st, ao, dk, uuid⟩ := env
  subst h
  cases bg <;> cases bi <;> cases ni <;> cases dk <;>
    simp [bootVM, Run.start, Run.call, Run.emit, Run.Dial, Run.Fatal, Run.setLock,
      Run.StatusIs, Run.UUIDIs, Run.ModeIs, Run.actions, List.filter, Event.isCorrective]

theorem status_cases (s : String) :
    s = "running" ∨ s = "saved" ∨ s = "not created" ∨
      (s ≠ "running" ∧ s ≠ "saved" ∧ s ≠ "not created") := by
  by_cases h1 : s = "running"
  · exact Or.inl h1
  by_cases h2 : s = "saved"
  · exact Or.inr (Or.inl h2)
  by_cases h3 : s = "not created"
  · exact Or.inr (Or.inr (Or.inl h3))
  exact Or.inr (Or.inr (Or.inr ⟨h1, h2, h3⟩))

/-- Go's `/` on `int` truncates toward zero: the quotient by 100 is 2 exactly on 200..299. -/
theorem tdiv_hundred_eq_two (c : Int) : Int.tdiv c 100 = 2 ↔ 200 ≤ c ∧ c ≤ 299 := by
  rcases le_or_lt 0 c with h | h
  · rw [Int.tdiv_eq_ediv h (by decide)]
    omega
  · have h1 : Int.tdiv c 100 = -(Int.tdiv (-c) 100) := by
      rw [Int.neg_tdiv, neg_neg]
    rw [h1, Int.tdiv_eq_ediv (by omega) (by decide)]
    omega

/-- A run of `bootVM` in which no call fails persists the status string that was read
before the corrective action, whatever that string is. -/
theorem bootVM_persists_status_read (env : BootEnv) (w : World)
    (hb : env.boxInstallOk = true) (hn : env.nanoInitOk = true) (ha : env.actionOk = true)
    (hd : env.dialOk = true) :
    (bootVM env w).fatal = false ∧ (bootVM env w).world.vmfile.status = env.status := by
  obtain ⟨bg, bi, ni, st, ao, dk, uuid⟩ := env
  simp only at hb hn ha hd
  subst hb hn ha hd
  rcases status_cases st with h | h | h | ⟨h1, h2, h3⟩
  · subst h
    cases bg <;>
      simp [bootVM, Run.start, Run.call, Run.emit, Run.Dial, Run.Fatal, Run.setLock,
        Run.StatusIs, Run.UUIDIs, Run.ModeIs, VMfile.StatusIs, VMfile.UUIDIs, VMfile.ModeIs]
  · subst h
    cases bg <;>
      simp [bootVM, Run.start, Run.call, Run.emit, Run.Dial, Run.Fatal, Run.setLock,
        Run.StatusIs, Run.UUIDIs, Run.ModeIs, VMfile.StatusIs, VMfile.UUIDIs, VMfile.ModeIs]
  · subst h
    cases bg <;>
      simp [bootVM, Run.start, Run.call, Run.emit, Run.Dial, Run.Fatal, Run.setLock,
        Run.StatusIs, Run.UUIDIs, Run.ModeIs, VMfile.StatusIs, VMfile.UUIDIs, VMfile.ModeIs]
  · cases bg <;>
      simp [bootVM, Run.start, Run.call, Run.emit, Run.Dial, Run.Fatal, Run.setLock,
        Run.StatusIs, Run.UUIDIs, Run.ModeIs, VMfile.StatusIs, VMfile.UUIDIs, VMfile.ModeIs,
        h1, h2, h3]

/-- A complete run of `bootVM`: a saved VM, the background flag set, no call failing. -/
theorem bootVM_trace_saved_background :
    (bootVM ⟨true, true, true, "saved", true, true, "a1b2"⟩
        ⟨⟨"saved", "", "", false⟩, none, ⟨[], 0⟩⟩).events =
      [Event.boxInstall, Event.nanoInit, Event.vagrantStatus, Event.nanoResume, Event.dial,
       Event.lockWrite 0, Event.setLock 0, Event.statusIs "saved", Event.vagrantUUID,
       Event.uuidIs "a1b2", Event.modeIs "background"] := by
  decide

/-- A complete run of `saveVM`: foreground mode, a lock held, the server answers 200. -/
theorem saveVM_trace_foreground_200 :
    (saveVM ⟨true, some 200, true⟩
        ⟨⟨"running", "a1b2", "foreground", false⟩, some 0, ⟨[0], 1⟩⟩).events =
      [Event.lockClose 0, Event.sleep, Event.newRequest, Event.putSuspend,
       Event.suspendableIs true, Event.nanoboxDown, Event.bodyClose] := by
  decide

/-- C1. Evaluation of `bootVM` at driver status `saved` with every call succeeding: one
corrective action (Resume) is performed, and the status written to the descriptor is the
string read before the action, `saved`, not `running`. -/
theorem bootVM_saved_persists_saved :
    (bootVM ⟨false, true, true, "saved", true, true, "a1b2"⟩
        ⟨⟨"not created", "", "foreground", false⟩, none, ⟨[], 0⟩⟩).actions = [Event.nanoResume] ∧
    (bootVM ⟨false, true, true, "saved", true, true, "a1b2"⟩
        ⟨⟨"not created", "", "foreground", false⟩, none, ⟨[], 0⟩⟩).fatal = false ∧
    (bootVM ⟨false, true, true, "saved", true, true, "a1b2"⟩
        ⟨⟨"not created", "", "foreground", false⟩, none, ⟨[], 0⟩⟩).world.vmfile.status = "saved" ∧
    (bootVM ⟨false, true, true, "saved", true, true, "a1b2"⟩
        ⟨⟨"not created", "", "foreground", false⟩, none, ⟨[], 0⟩⟩).world.vmfile.status
      ≠ "running" := by
  decide

/-- Witness for C2: a run at status `running` with the background flag set. -/
theorem bootVM_running_no_corrective_action_witness :
    (bootVM ⟨true, true, true, "running", true, true, "a1b2"⟩
        ⟨⟨"running", "a1b2", "", false⟩, none, ⟨[3], 4⟩⟩).actions = [] :=
  bootVM_running_no_corrective_action ⟨true, true, true, "running", true, true, "a1b2"⟩
    ⟨⟨"running", "a1b2", "", false⟩, none, ⟨[3], 4⟩⟩ rfl

/-- C3. If the descriptor's mode is `background`, `saveVM` never issues the suspend
action, whatever the control server would answer (2xx included): it returns before the
suspend-readiness request is even made, without a fatal error. -/
theorem saveVM_background_never_suspends (env : SaveEnv) (w : World)
    (h : w.vmfile.mode = "background") :
    Event.nanoboxDown ∉ (saveVM env w).events ∧ (saveVM env w).suspends = 0 ∧
      Event.putSuspend ∉ (saveVM env w).events ∧ (saveVM env w).fatal = false := by
  obtain ⟨vm, lk, srv⟩ := w
  obtain ⟨st, uu, md, sp⟩ := vm
  simp only at h
  subst h
  cases lk <;>
    simp [saveVM, Run.start, Run.emit, Run.Close, VMfile.IsMode, Run.suspends]

/-- Witness for C3: background mode, a held lock and a server that would answer 200. -/
theorem saveVM_background_never_suspends_witness :
    Event.nanoboxDown ∉
        (saveVM ⟨true, some 200, true⟩ ⟨⟨"running", "a1b2", "background", true⟩, some 0, ⟨[0], 1⟩⟩).events ∧
      (saveVM ⟨true, some 200, true⟩
        ⟨⟨"running", "a1b2", "background", true⟩, some 0, ⟨[0], 1⟩⟩).suspends = 0 ∧
      Event.putSuspend ∉
        (saveVM ⟨true, some 200, true⟩ ⟨⟨"running", "a1b2", "background", true⟩, some 0, ⟨[0], 1⟩⟩).events ∧
      (saveVM ⟨true, some 200, true⟩
        ⟨⟨"running", "a1b2", "background", true⟩, some 0, ⟨[0], 1⟩⟩).fatal = false :=
  saveVM_background_never_suspends ⟨true, some 200, true⟩
    ⟨⟨"running", "a1b2", "background", true⟩, some 0, ⟨[0], 1⟩⟩ rfl

/-- C4. In foreground mode (the stored mode is not `background`), for every answer to the
suspend-readiness request whose status code is outside 200..299, `saveVM` persists
`suspendable = false`, does not call the suspend action and returns without a fatal error
after telling the user that the VM was not suspended. -/
theorem saveVM_not_2xx_no_suspend (env : SaveEnv) (w : World) (code : Int)
    (hmode : w.vmfile.mode ≠ "background") (hreq : env.newRequestOk = true)
    (hres : env.response = some code) (hcode : ¬ (200 ≤ code ∧ code ≤ 299)) :
    (saveVM env w).world.vmfile.suspendable = false ∧
      Event.suspendableIs false ∈ (saveVM env w).events ∧
      Event.suspendableIs true ∉ (saveVM env w).events ∧
      Event.nanoboxDown ∉ (saveVM env w).events ∧
      Event.noteNotSuspended ∈ (saveVM env w).events ∧
      (saveVM env w).fatal = false := by
  obtain ⟨vm, lk, srv⟩ := w
  obtain ⟨rq, rs, dn⟩ := env
  simp only at hmode hreq hres
  subst hreq hres
  have hc : Int.tdiv code 100 ≠ 2 := fun h => hcode ((tdiv_hundred_eq_two code).1 h)
  cases lk <;>
    simp [saveVM, Run.start, Run.emit, Run.Close, Run.Fatal, Run.SuspendableIs, Run.call,
      VMfile.IsMode, VMfile.IsSuspendable, VMfile.SuspendableIs, hmode, hc]

/-- Witness for C4: the control server answers 503 while a lock is held. -/
theorem saveVM_not_2xx_no_suspend_witness :
    (saveVM ⟨true, some 503, true⟩
        ⟨⟨"running", "a1b2", "foreground", true⟩, some 0, ⟨[1, 0], 2⟩⟩).world.vmfile.suspendable
        = false ∧
      Event.suspendableIs false ∈ (saveVM ⟨true, some 503, true⟩
        ⟨⟨"running", "a1b2", "foreground", true⟩, some 0, ⟨[1, 0], 2⟩⟩).events ∧
      Event.suspendableIs true ∉ (saveVM ⟨true, some 503, true⟩
        ⟨⟨"running", "a1b2", "foreground", true⟩, some 0, ⟨[1, 0], 2⟩⟩).events ∧
      Event.nanoboxDown ∉ (saveVM ⟨true, some 503, true⟩
        ⟨⟨"running", "a1b2", "foreground", true⟩, some 0, ⟨[1, 0], 2⟩⟩).events ∧
      Event.noteNotSuspended ∈ (saveVM ⟨true, some 503, true⟩
        ⟨⟨"running", "a1b2", "foreground", true⟩, some 0, ⟨[1, 0], 2⟩⟩).events ∧
      (saveVM ⟨true, some 503, true⟩
        ⟨⟨"running", "a1b2", "foreground", true⟩, some 0, ⟨[1, 0], 2⟩⟩).fatal = false :=
  saveVM_not_2xx_no_suspend ⟨true, some 503, true⟩
    ⟨⟨"running", "a1b2", "foreground", true⟩, some 0, ⟨[1, 0], 2⟩⟩ 503
    (by decide) rfl rfl (by decide)

/-- C5. In foreground mode, for every answer to the suspend-readiness request whose status
code is in 200..299 (these are exactly the codes whose truncated quotient by 100 is 2),
`saveVM` persists `suspendable = true` and invokes the suspend action exactly once. -/
theorem saveVM_2xx_suspends_once (env : SaveEnv) (w : World) (code : Int)
    (hmode : w.vmfile.mode ≠ "background") (hreq : env.newRequestOk = true)
    (hres : env.response = some code) (hcode : 200 ≤ code ∧ code ≤ 299) :
    (∀ c : Int, Int.tdiv c 100 = 2 ↔ 200 ≤ c ∧ c ≤ 299) ∧
      (saveVM env w).world.vmfile.suspendable = true ∧
      Event.suspendableIs true ∈ (saveVM env w).events ∧
      Event.suspendableIs false ∉ (saveVM env w).events ∧
      (saveVM env w).suspends = 1 := by
  obtain ⟨vm, lk, srv⟩ := w
  obtain ⟨rq, rs, dn⟩ := env
  simp only at hmode hreq hres
  subst hreq hres
  have hc : Int.tdiv code 100 = 2 := (tdiv_hundred_eq_two code).2 hcode
  refine ⟨tdiv_hundred_eq_two, ?_⟩
  cases lk <;> cases dn <;>
    simp [saveVM, Run.start, Run.emit, Run.Close, Run.Fatal, Run.SuspendableIs, Run.call,
      VMfile.IsMode, VMfile.IsSuspendable, VMfile.SuspendableIs, Run.suspends, hmode, hc]

/-- Witness for C5: the control server answers 200 in foreground mode. -/
theorem saveVM_2xx_suspends_once_witness :
    (∀ c : Int, Int.tdiv c 100 = 2 ↔ 200 ≤ c ∧ c ≤ 299) ∧
      (saveVM ⟨true, some 200, true⟩
        ⟨⟨"running", "a1b2", "foreground", false⟩, some 0, ⟨[0], 1⟩⟩).world.vmfile.suspendable
        = true ∧
      Event.suspendableIs true ∈ (saveVM ⟨true, some 200, true⟩
        ⟨⟨"running", "a1b2", "foreground", false⟩, some 0, ⟨[0], 1⟩⟩).events ∧
      Event.suspendableIs false ∉ (saveVM ⟨true, some 200, true⟩
        ⟨⟨"running", "a1b2", "foreground", false⟩, some 0, ⟨[0], 1⟩⟩).events ∧
      (saveVM ⟨true, some 200, true⟩
        ⟨⟨"running", "a1b2", "foreground", false⟩, some 0, ⟨[0], 1⟩⟩).suspends = 1 :=
  saveVM_2xx_suspends_once ⟨true, some 200, true⟩
    ⟨⟨"running", "a1b2", "foreground", false⟩, some 0, ⟨[0], 1⟩⟩ 200
    (by decide) rfl rfl (by decide)

/-- The one-pass check is sound for `Precedes`. -/
theorem precedes_of_precedesB (p q : Event → Bool) (l : List Event)
    (h : precedesB p q l = true) : Precedes p q l := by
  induction l with
  | nil =>
    intro i j a b hi
    simp at hi
  | cons e t ih =>
    simp only [precedesB, Bool.and_eq_true, Bool.or_eq_true, Bool.not_eq_true',
      List.all_eq_true] at h
    obtain ⟨hq, ht⟩ := h
    intro i j a b hi hj hpa hqb
    cases j with
    | zero =>
      simp only [List.getElem?_cons_zero, Option.some.injEq] at hj
      subst hj
      rcases hq with hq | ⟨hpe, hall⟩
      · rw [hqb] at hq
        exact absurd hq (by decide)
      · cases i with
        | zero =>
          simp only [List.getElem?_cons_zero, Option.some.injEq] at hi
          subst hi
          rw [hpa] at hpe
          exact absurd hpe (by decide)
        | succ k =>
          simp only [List.getElem?_cons_succ] at hi
          have hmem : a ∈ t := List.getElem?_mem hi
          have := hall a hmem
          rw [hpa] at this
          exact absurd this (by decide)
    | succ m =>
      cases i with
      | zero => exact Nat.succ_pos m
      | succ k =>
        simp only [List.getElem?_cons_succ] at hi hj
        exact Nat.succ_lt_succ (ih ht k m a b hi hj hpa hqb)

/-- C6. `bootVM` writes the descriptor's mode only when the background flag is set (and
the run reaches the descriptor writes), and the value it writes is `background`; without
the flag the mode is left exactly as it was. In particular a run at status `not created`
without the flag performs Create and keeps the mode it found. -/
theorem bootVM_mode_written_only_with_flag (env : BootEnv) (w : World) :
    (bootVM env w).events.filter Event.isModeWrite =
        (if env.fBackground && !(bootVM env w).fatal then [Event.modeIs "background"] else []) ∧
      (bootVM env w).world.vmfile.mode =
        (if env.fBackground && !(bootVM env w).fatal then "background" else w.vmfile.mode) ∧
      (bootVM ⟨false, true, true, "not created", true, true, env.uuid⟩ w).actions
        = [Event.nanoCreate] ∧
      (bootVM ⟨false, true, true, "not created", true, true, env.uuid⟩ w).world.vmfile.mode
        = w.vmfile.mode := by
  obtain ⟨bg, bi, ni, st, ao, dk, uuid⟩ := env
  refine ⟨?_, ?_, ?_, ?_⟩
  · rcases status_cases st with h | h | h | ⟨h1, h2, h3⟩
    · subst h
      cases bg <;> cases bi <;> cases ni <;> cases ao <;> cases dk <;>
        simp [bootVM, Run.start, Run.call, Run.emit, Run.Dial, Run.Fatal, Run.setLock,
          Run.StatusIs, Run.UUIDIs, Run.ModeIs, List.filter, Event.isModeWrite]
    · subst h
      cases bg <;> cases bi <;> cases ni <;> cases ao <;> cases dk <;>
        simp [bootVM, Run.start, Run.call, Run.emit, Run.Dial, Run.Fatal, Run.setLock,
          Run.StatusIs, Run.UUIDIs, Run.ModeIs, List.filter, Event.isModeWrite]
    · subst h
      cases bg <;> cases bi <;> cases ni <;> cases ao <;> cases dk <;>
        simp [bootVM, Run.start, Run.call, Run.emit, Run.Dial, Run.Fatal, Run.setLock,
          Run.StatusIs, Run.UUIDIs, Run.ModeIs, List.filter, Event.isModeWrite]
    · cases bg <;> cases bi <;> cases ni <;> cases ao <;> cases dk <;>
        simp [bootVM, Run.start, Run.call, Run.emit, Run.Dial, Run.Fatal, Run.setLock,
          Run.StatusIs, Run.UUIDIs, Run.ModeIs, List.filter, Event.isModeWrite, h1, h2, h3]
  · rcases status_cases st with h | h | h | ⟨h1, h2, h3⟩
    · subst h
      cases bg <;> cases bi <;> cases ni <;> cases ao <;> cases dk <;>
        simp [bootVM, Run.start, Run.call, Run.emit, Run.Dial, Run.Fatal, Run.setLock,
          Run.StatusIs, Run.UUIDIs, Run.ModeIs, VMfile.StatusIs, VMfile.UUIDIs, VMfile.ModeIs]
    · subst h
      cases bg <;> cases bi <;> cases ni <;> cases ao <;> cases dk <;>
        simp [bootVM, Run.start, Run.call, Run.emit, Run.Dial, Run.Fatal, Run.setLock,
          Run.StatusIs, Run.UUIDIs, Run.ModeIs, VMfile.StatusIs, VMfile.UUIDIs, VMfile.ModeIs]
    · subst h
      cases bg <;> cases bi <;> cases ni <;> cases ao <;> cases dk <;>
        simp [bootVM, Run.start, Run.call, Run.emit, Run.Dial, Run.Fatal, Run.setLock,
          Run.StatusIs, Run.UUIDIs, Run.ModeIs, VMfile.StatusIs, VMfile.UUIDIs, VMfile.ModeIs]
    · cases bg <;> cases bi <;> cases ni <;> cases ao <;> cases dk <;>
        simp [bootVM, Run.start, Run.call, Run.emit, Run.Dial, Run.Fatal, Run.setLock,
          Run.StatusIs, Run.UUIDIs, Run.ModeIs, VMfile.StatusIs, VMfile.UUIDIs, VMfile.ModeIs,
          h1, h2, h3]
  · simp [bootVM, Run.start, Run.call, Run.emit, Run.Dial, Run.Fatal, Run.setLock,
      Run.StatusIs, Run.UUIDIs, Run.ModeIs, Run.actions, List.filter, Event.isCorrective]
  · simp [bootVM, Run.start, Run.call, Run.emit, Run.Dial, Run.Fatal, Run.setLock,
      Run.StatusIs, Run.UUIDIs, Run.ModeIs, VMfile.StatusIs, VMfile.UUIDIs, VMfile.ModeIs]

/-- C7. `saveVM` with no lock held (`config.Lock` is nil) skips the release: no close is
issued, the first thing the run does is the wait, and the server's open connections are
what they were. From there on the run is the one made with a lock held, minus the close:
same later events, same descriptor, same outcome. -/
theorem saveVM_without_lock (env : SaveEnv) (vm : VMfile) (srv : Server) (c : Conn) :
    (∀ d, Event.lockClose d ∉ (saveVM env ⟨vm, none, srv⟩).events) ∧
      (saveVM env ⟨vm, none, srv⟩).events.head? = some Event.sleep ∧
      (saveVM env ⟨vm, none, srv⟩).world.server = srv ∧
      (saveVM env ⟨vm, none, srv⟩).world.server.count = srv.count ∧
      (saveVM env ⟨vm, some c, srv⟩).events
        = Event.lockClose c :: (saveVM env ⟨vm, none, srv⟩).events ∧
      (saveVM env ⟨vm, none, srv⟩).world.vmfile = (saveVM env ⟨vm, some c, srv⟩).world.vmfile ∧
      (saveVM env ⟨vm, none, srv⟩).fatal = (saveVM env ⟨vm, some c, srv⟩).fatal := by
  obtain ⟨rq, rs, dn⟩ := env
  by_cases hm : vm.mode = "background"
  · cases rq <;> cases dn <;>
      simp [saveVM, Run.start, Run.emit, Run.Close, Run.Fatal, Run.SuspendableIs, Run.call,
        VMfile.IsMode, VMfile.IsSuspendable, VMfile.SuspendableIs, hm]
  · cases rs with
    | none =>
      cases rq <;> cases dn <;>
        simp [saveVM, Run.start, Run.emit, Run.Close, Run.Fatal, Run.SuspendableIs, Run.call,
          VMfile.IsMode, VMfile.IsSuspendable, VMfile.SuspendableIs, hm]
    | some code =>
      by_cases hc : Int.tdiv code 100 = 2
      · cases rq <;> cases dn <;>
          simp [saveVM, Run.start, Run.emit, Run.Close, Run.Fatal, Run.SuspendableIs, Run.call,
            VMfile.IsMode, VMfile.IsSuspendable, VMfile.SuspendableIs, hm, hc]
      · cases rq <;> cases dn <;>
          simp [saveVM, Run.start, Run.emit, Run.Close, Run.Fatal, Run.SuspendableIs, Run.call,
            VMfile.IsMode, VMfile.IsSuspendable, VMfile.SuspendableIs, hm, hc]

/-- C9. If the suspend-readiness request cannot be delivered (the HTTP client returns an
error) during a foreground-mode teardown, `saveVM` ends with a fatal error naming the
failed call: the suspend action is not invoked and the descriptor, its suspendable flag
included, is left as it was. -/
theorem saveVM_unreachable_server_fatal (env : SaveEnv) (w : World)
    (hmode : w.vmfile.mode ≠ "background") (hreq : env.newRequestOk = true)
    (hres : env.response = none) :
    (saveVM env w).fatal = true ∧
      (saveVM env w).events.getLast?
        = some (Event.fatal "[commands/commands] http.DefaultClient.Do() failed") ∧
      Event.nanoboxDown ∉ (saveVM env w).events ∧
      (∀ b, Event.suspendableIs b ∉ (saveVM env w).events) ∧
      (saveVM env w).world.vmfile.suspendable = w.vmfile.suspendable ∧
      (saveVM env w).world.vmfile = w.vmfile := by
  obtain ⟨vm, lk, srv⟩ := w
  obtain ⟨rq, rs, dn⟩ := env
  simp only at hmode hreq hres
  subst hreq hres
  cases lk <;>
    simp [saveVM, Run.start, Run.emit, Run.Close, Run.Fatal, Run.SuspendableIs, Run.call,
      VMfile.IsMode, VMfile.IsSuspendable, VMfile.SuspendableIs, hmode]

/-- Witness for C9: foreground mode, a held lock, and a request that fails. -/
theorem saveVM_unreachable_server_fatal_witness :
    (saveVM ⟨true, none, true⟩
        ⟨⟨"running", "a1b2", "foreground", true⟩, some 0, ⟨[0], 1⟩⟩).fatal = true ∧
      (saveVM ⟨true, none, true⟩
        ⟨⟨"running", "a1b2", "foreground", true⟩, some 0, ⟨[0], 1⟩⟩).events.getLast?
        = some (Event.fatal "[commands/commands] http.DefaultClient.Do() failed") ∧
      Event.nanoboxDown ∉ (saveVM ⟨true, none, true⟩
        ⟨⟨"running", "a1b2", "foreground", true⟩, some 0, ⟨[0], 1⟩⟩).events ∧
      (∀ b, Event.suspendableIs b ∉ (saveVM ⟨true, none, true⟩
        ⟨⟨"running", "a1b2", "foreground", true⟩, some 0, ⟨[0], 1⟩⟩).events) ∧
      (saveVM ⟨true, none, true⟩
        ⟨⟨"running", "a1b2", "foreground", true⟩, some 0, ⟨[0], 1⟩⟩).world.vmfile.suspendable
        = true ∧
      (saveVM ⟨true, none, true⟩
        ⟨⟨"running", "a1b2", "foreground", true⟩, some 0, ⟨[0], 1⟩⟩).world.vmfile
        = ⟨"running", "a1b2", "foreground", true⟩ :=
  saveVM_unreachable_server_fatal ⟨true, none, true⟩
    ⟨⟨"running", "a1b2", "foreground", true⟩, some 0, ⟨[0], 1⟩⟩ (by decide) rfl rfl

/-- In a run of `bootVM` nothing of the lock acquisition is followed by a corrective action. -/
theorem bootVM_action_then_lock (env : BootEnv) (w : World) :
    precedesB Event.isCorrective Event.isLockAcquire (bootVM env w).events = true := by
  obtain ⟨bg, bi, ni, st, ao, dk, uuid⟩ := env
  rcases status_cases st with h | h | h | ⟨h1, h2, h3⟩
  · subst h
    cases bg <;> cases bi <;> cases ni <;> cases ao <;> cases dk <;>
      simp [bootVM, Run.start, Run.call, Run.emit, Run.Dial, Run.Fatal, Run.setLock,
        Run.StatusIs, Run.UUIDIs, Run.ModeIs, precedesB, Event.isCorrective,
        Event.isLockAcquire, Event.isDescriptorWrite]
  · subst h
    cases bg <;> cases bi <;> cases ni <;> cases ao <;> cases dk <;>
      simp [bootVM, Run.start, Run.call, Run.emit, Run.Dial, Run.Fatal, Run.setLock,
        Run.StatusIs, Run.UUIDIs, Run.ModeIs, precedesB, Event.isCorrective,
        Event.isLockAcquire, Event.isDescriptorWrite]
  · subst h
    cases bg <;> cases bi <;> cases ni <;> cases ao <;> cases dk <;>
      simp [bootVM, Run.start, Run.call, Run.emit, Run.Dial, Run.Fatal, Run.setLock,
        Run.StatusIs, Run.UUIDIs, Run.ModeIs, precedesB, Event.isCorrective,
        Event.isLockAcquire, Event.isDescriptorWrite]
  · cases bg <;> cases bi <;> cases ni <;> cases ao <;> cases dk <;>
      simp [bootVM, Run.start, Run.call, Run.emit, Run.Dial, Run.Fatal, Run.setLock,
        Run.StatusIs, Run.UUIDIs, Run.ModeIs, precedesB, Event.isCorrective,
        Event.isLockAcquire, Event.isDescriptorWrite,
        h1, h2, h3]

/-- In a run of `bootVM` no descriptor write is followed by a step of the lock acquisition. -/
theorem bootVM_lock_then_writes (env : BootEnv) (w : World) :
    precedesB Event.isLockAcquire Event.isDescriptorWrite (bootVM env w).events = true := by
  obtain ⟨bg, bi, ni, st, ao, dk, uuid⟩ := env
  rcases status_cases st with h | h | h | ⟨h1, h2, h3⟩
  · subst h
    cases bg <;> cases bi <;> cases ni <;> cases ao <;> cases dk <;>
      simp [bootVM, Run.start, Run.call, Run.emit, Run.Dial, Run.Fatal, Run.setLock,
        Run.StatusIs, Run.UUIDIs, Run.ModeIs, precedesB, Event.isCorrective,
        Event.isLockAcquire, Event.isDescriptorWrite]
  · subst h
    cases bg <;> cases bi <;> cases ni <;> cases ao <;> cases dk <;>
      simp [bootVM, Run.start, Run.call, Run.emit, Run.Dial, Run.Fatal, Run.setLock,
        Run.StatusIs, Run.UUIDIs, Run.ModeIs, precedesB, Event.isCorrective,
        Event.isLockAcquire, Event.isDescriptorWrite]
  · subst h
    cases bg <;> cases bi <;> cases ni <;> cases ao <;> cases dk <;>
      simp [bootVM, Run.start, Run.call, Run.emit, Run.Dial, Run.Fatal, Run.setLock,
        Run.StatusIs, Run.UUIDIs, Run.ModeIs, precedesB, Event.isCorrective,
        Event.isLockAcquire, Event.isDescriptorWrite]
  · cases bg <;> cases bi <;> cases ni <;> cases ao <;> cases dk <;>
      simp [bootVM, Run.start, Run.call, Run.emit, Run.Dial, Run.Fatal, Run.setLock,
        Run.StatusIs, Run.UUIDIs, Run.ModeIs, precedesB, Event.isCorrective,
        Event.isLockAcquire, Event.isDescriptorWrite,
        h1, h2, h3]

/-- In a run of `saveVM` the suspend-readiness request is not followed by a lock release. -/
theorem saveVM_release_then_check (env : SaveEnv) (w : World) :
    precedesB Event.isLockRelease Event.isSuspendCheck (saveVM env w).events = true := by
  obtain ⟨rq, rs, dn⟩ := env
  obtain ⟨vm, lk, srv⟩ := w
  by_cases hm : vm.mode = "background"
  · cases lk <;>
      simp [saveVM, Run.start, Run.emit, Run.Close, Run.Fatal, Run.SuspendableIs,
          Run.call, VMfile.IsMode, VMfile.IsSuspendable, VMfile.SuspendableIs, precedesB,
          Event.isLockRelease, Event.isSuspendCheck, Event.isSuspend, hm]
  · cases rs with
    | none =>
      cases lk <;> cases rq <;>
        simp [saveVM, Run.start, Run.emit, Run.Close, Run.Fatal, Run.SuspendableIs,
          Run.call, VMfile.IsMode, VMfile.IsSuspendable, VMfile.SuspendableIs, precedesB,
          Event.isLockRelease, Event.isSuspendCheck, Event.isSuspend, hm]
    | some code =>
      by_cases hc : Int.tdiv code 100 = 2
      · cases lk <;> cases rq <;> cases dn <;>
          simp [saveVM, Run.start, Run.emit, Run.Close, Run.Fatal, Run.SuspendableIs,
          Run.call, VMfile.IsMode, VMfile.IsSuspendable, VMfile.SuspendableIs, precedesB,
          Event.isLockRelease, Event.isSuspendCheck, Event.isSuspend, hm, hc]
      · cases lk <;> cases rq <;> cases dn <;>
          simp [saveVM, Run.start, Run.emit, Run.Close, Run.Fatal, Run.SuspendableIs,
          Run.call, VMfile.IsMode, VMfile.IsSuspendable, VMfile.SuspendableIs, precedesB,
          Event.isLockRelease, Event.isSuspendCheck, Event.isSuspend, hm, hc]

/-- In a run of `saveVM` the suspend action is not followed by a suspend-readiness request. -/
theorem saveVM_check_then_suspend (env : SaveEnv) (w : World) :
    precedesB Event.isSuspendCheck Event.isSuspend (saveVM env w).events = true := by
  obtain ⟨rq, rs, dn⟩ := env
  obtain ⟨vm, lk, srv⟩ := w
  by_cases hm : vm.mode = "background"
  · cases lk <;>
      simp [saveVM, Run.start, Run.emit, Run.Close, Run.Fatal, Run.SuspendableIs,
          Run.call, VMfile.IsMode, VMfile.IsSuspendable, VMfile.SuspendableIs, precedesB,
          Event.isLockRelease, Event.isSuspendCheck, Event.isSuspend, hm]
  · cases rs with
    | none =>
      cases lk <;> cases rq <;>
        simp [saveVM, Run.start, Run.emit, Run.Close, Run.Fatal, Run.SuspendableIs,
          Run.call, VMfile.IsMode, VMfile.IsSuspendable, VMfile.SuspendableIs, precedesB,
          Event.isLockRelease, Event.isSuspendCheck, Event.isSuspend, hm]
    | some code =>
      by_cases hc : Int.tdiv code 100 = 2
      · cases lk <;> cases rq <;> cases dn <;>
          simp [saveVM, Run.start, Run.emit, Run.Close, Run.Fatal, Run.SuspendableIs,
          Run.call, VMfile.IsMode, VMfile.IsSuspendable, VMfile.SuspendableIs, precedesB,
          Event.isLockRelease, Event.isSuspendCheck, Event.isSuspend, hm, hc]
      · cases lk <;> cases rq <;> cases dn <;>
          simp [saveVM, Run.start, Run.emit, Run.Close, Run.Fatal, Run.SuspendableIs,
          Run.call, VMfile.IsMode, VMfile.IsSuspendable, VMfile.SuspendableIs, precedesB,
          Event.isLockRelease, Event.isSuspendCheck, Event.isSuspend, hm, hc]

/-- With a lock held, the first thing a run of `saveVM` does is close it. -/
theorem saveVM_release_first (env : SaveEnv) (vm : VMfile) (srv : Server) (c : Conn) :
    (saveVM env ⟨vm, some c, srv⟩).events.head? = some (Event.lockClose c) := by
  obtain ⟨rq, rs, dn⟩ := env
  by_cases hm : vm.mode = "background"
  · simp [saveVM, Run.start, Run.emit, Run.Close, Run.Fatal, Run.SuspendableIs,
          Run.call, VMfile.IsMode, VMfile.IsSuspendable, VMfile.SuspendableIs, precedesB,
          Event.isLockRelease, Event.isSuspendCheck, Event.isSuspend, hm]
  · cases rs with
    | none =>
      cases rq <;>
        simp [saveVM, Run.start, Run.emit, Run.Close, Run.Fatal, Run.SuspendableIs,
          Run.call, VMfile.IsMode, VMfile.IsSuspendable, VMfile.SuspendableIs, precedesB,
          Event.isLockRelease, Event.isSuspendCheck, Event.isSuspend, hm]
    | some code =>
      by_cases hc : Int.tdiv code 100 = 2
      · cases rq <;> cases dn <;>
          simp [saveVM, Run.start, Run.emit, Run.Close, Run.Fatal, Run.SuspendableIs,
          Run.call, VMfile.IsMode, VMfile.IsSuspendable, VMfile.SuspendableIs, precedesB,
          Event.isLockRelease, Event.isSuspendCheck, Event.isSuspend, hm, hc]
      · cases rq <;> cases dn <;>
          simp [saveVM, Run.start, Run.emit, Run.Close, Run.Fatal, Run.SuspendableIs,
          Run.call, VMfile.IsMode, VMfile.IsSuspendable, VMfile.SuspendableIs, precedesB,
          Event.isLockRelease, Event.isSuspendCheck, Event.isSuspend, hm, hc]

/-- C10. The order of effects within one process is fixed. In every run of `bootVM` the
corrective action comes before the lock acquisition, which comes before the descriptor
writes. In every run of `saveVM` the lock release comes before the suspend-readiness
request, which comes before the suspend action; and when a lock is held the release is
the very first thing the run does, so the request is never issued before it. -/
theorem effects_in_fixed_order (benv : BootEnv) (senv : SaveEnv) (w : World) :
    Precedes Event.isCorrective Event.isLockAcquire (bootVM benv w).events ∧
      Precedes Event.isLockAcquire Event.isDescriptorWrite (bootVM benv w).events ∧
      Precedes Event.isLockRelease Event.isSuspendCheck (saveVM senv w).events ∧
      Precedes Event.isSuspendCheck Event.isSuspend (saveVM senv w).events ∧
      (∀ c, (saveVM senv ⟨w.vmfile, some c, w.server⟩).events.head?
        = some (Event.lockClose c)) :=
  ⟨precedes_of_precedesB _ _ _ (bootVM_action_then_lock benv w),
   precedes_of_precedesB _ _ _ (bootVM_lock_then_writes benv w),
   precedes_of_precedesB _ _ _ (saveVM_release_then_check senv w),
   precedes_of_precedesB _ _ _ (saveVM_check_then_suspend senv w),
   fun c => saveVM_release_first senv w.vmfile w.server c⟩

/-- What `bootVM` does to the lock and the server: a run ended by a fatal error leaves the
state as it found it; a run that returns has opened exactly one connection and stored it
in `config.Lock`. -/
theorem bootVM_lock_server (env : BootEnv) (w : World) :
    ((bootVM env w).fatal = true ∧ (bootVM env w).world = w) ∨
      ((bootVM env w).fatal = false ∧ (bootVM env w).world.server = w.server.accept ∧
        (bootVM env w).world.lock = some w.server.next) := by
  obtain ⟨bg, bi, ni, st, ao, dk, uuid⟩ := env
  rcases status_cases st with h | h | h | ⟨h1, h2, h3⟩
  · subst h
    cases bg <;> cases bi <;> cases ni <;> cases ao <;> cases dk <;>
      simp [bootVM, Run.start, Run.call, Run.emit, Run.Dial, Run.Fatal, Run.setLock,
        Run.StatusIs, Run.UUIDIs, Run.ModeIs]
  · subst h
    cases bg <;> cases bi <;> cases ni <;> cases ao <;> cases dk <;>
      simp [bootVM, Run.start, Run.call, Run.emit, Run.Dial, Run.Fatal, Run.setLock,
        Run.StatusIs, Run.UUIDIs, Run.ModeIs]
  · subst h
    cases bg <;> cases bi <;> cases ni <;> cases ao <;> cases dk <;>
      simp [bootVM, Run.start, Run.call, Run.emit, Run.Dial, Run.Fatal, Run.setLock,
        Run.StatusIs, Run.UUIDIs, Run.ModeIs]
  · cases bg <;> cases bi <;> cases ni <;> cases ao <;> cases dk <;>
      simp [bootVM, Run.start, Run.call, Run.emit, Run.Dial, Run.Fatal, Run.setLock,
        Run.StatusIs, Run.UUIDIs, Run.ModeIs, h1, h2, h3]

/-- What `saveVM` does to the lock and the server: `config.Lock` keeps its value, and the
connection it names, if any, is closed. -/
theorem saveVM_lock_server (env : SaveEnv) (w : World) :
    (saveVM env w).world.lock = w.lock ∧
      (saveVM env w).world.server =
        (match w.lock with
         | some c => w.server.drop c
         | none => w.server) := by
  obtain ⟨rq, rs, dn⟩ := env
  obtain ⟨vm, lk, srv⟩ := w
  by_cases hm : vm.mode = "background"
  · cases lk <;>
      simp [saveVM, Run.start, Run.emit, Run.Close, VMfile.IsMode, hm]
  · cases rs with
    | none =>
      cases lk <;> cases rq <;>
        simp [saveVM, Run.start, Run.emit, Run.Close, Run.Fatal, VMfile.IsMode, hm]
    | some code =>
      by_cases hc : Int.tdiv code 100 = 2
      · cases lk <;> cases rq <;> cases dn <;>
          simp [saveVM, Run.start, Run.emit, Run.Close, Run.Fatal, Run.SuspendableIs,
            Run.call, VMfile.IsMode, VMfile.IsSuspendable, VMfile.SuspendableIs, hm, hc]
      · cases lk <;> cases rq <;> cases dn <;>
          simp [saveVM, Run.start, Run.emit, Run.Close, Run.Fatal, Run.SuspendableIs,
            Run.call, VMfile.IsMode, VMfile.IsSuspendable, VMfile.SuspendableIs, hm, hc]

/-- Changing the lock of a session outside `R` does not change the locks held in `R`. -/
theorem filterMap_update_of_not_mem (lock : Nat → Option Conn) (s : Nat) (v : Option Conn)
    (R : List Nat) (hs : s ∉ R) :
    R.filterMap (Function.update lock s v) = R.filterMap lock := by
  induction R with
  | nil => rfl
  | cons t R ih =>
    have hts : t ≠ s := fun h => hs (h ▸ List.mem_cons_self t R)
    have hR : s ∉ R := fun h => hs (List.mem_cons_of_mem t h)
    simp only [List.filterMap_cons, Function.update_noteq hts, ih hR]

/-- The bookkeeping invariant holds before any session has started. -/
theorem Sys.inv_init (vm : VMfile) (srv : Server) : Sys.Inv srv.conns (Sys.init vm srv) := by
  refine ⟨[], List.nodup_nil, ?_, ?_, ?_⟩
  · intro s
    simp [Sys.init]
  · intro s hs
    simp at hs
  · simp [Sys.init]

/-- Every step of an interleaving keeps the bookkeeping invariant. -/
theorem Sys.inv_step (base : List Conn) (σ σ2 : Sys) (st : Step)
    (hinv : Sys.Inv base σ) (hstep : σ.step st = some σ2) : Sys.Inv base σ2 := by
  obtain ⟨R, hnd, hR, hlock, hperm⟩ := hinv
  cases st with
  | boot s env =>
    simp only [Sys.step] at hstep
    split at hstep
    · rename_i hfresh
      simp only [Option.some.injEq] at hstep
      subst hstep
      have hsR : s ∉ R := by
        intro h
        have := (hR s).1 h
        rw [hfresh] at this
        exact absurd this (by decide)
      rcases bootVM_lock_server env ⟨σ.vmfile, σ.lock s, σ.server⟩ with ⟨hf, hw⟩ | ⟨hf, hs, hl⟩
      · refine ⟨R, hnd, ?_, ?_, ?_⟩
        · intro t
          by_cases hts : t = s
          · subst hts
            simp [hf, hsR]
          · simp [Function.update_noteq hts, hR t]
        · intro t ht
          have hts : t ≠ s := fun h => hsR (h ▸ ht)
          simpa [Function.update_noteq hts] using hlock t ht
        · simp only [hw]
          rw [filterMap_update_of_not_mem _ _ _ _ hsR]
          exact hperm
      · refine ⟨s :: R, List.nodup_cons.2 ⟨hsR, hnd⟩, ?_, ?_, ?_⟩
        · intro t
          by_cases hts : t = s
          · subst hts
            simp [hf]
          · simp [Function.update_noteq hts, hR t, hts]
        · intro t ht
          by_cases hts : t = s
          · subst hts
            exact ⟨σ.server.next, by simp [hl]⟩
          · have htR : t ∈ R := by
              rcases List.mem_cons.1 ht with h | h
              · exact absurd h hts
              · exact h
            simpa [Function.update_noteq hts] using hlock t htR
        · simp only [hs, hl, Server.accept, List.filterMap_cons, Function.update_same,
            List.cons_append]
          rw [filterMap_update_of_not_mem _ _ _ _ hsR]
          exact List.Perm.cons _ hperm
    · exact absurd hstep (by simp)
  | save s env =>
    simp only [Sys.step] at hstep
    split at hstep
    · rename_i hrun
      simp only [Option.some.injEq] at hstep
      subst hstep
      have hsR : s ∈ R := (hR s).2 hrun
      obtain ⟨c, hc⟩ := hlock s hsR
      have hs : (saveVM env ⟨σ.vmfile, σ.lock s, σ.server⟩).world.server
          = σ.server.drop c := by
        rw [(saveVM_lock_server env ⟨σ.vmfile, σ.lock s, σ.server⟩).2]
        simp only [hc]
      have hsE : s ∉ R.erase s := fun h => ((hnd.mem_erase_iff).1 h).1 rfl
      refine ⟨R.erase s, hnd.erase s, ?_, ?_, ?_⟩
      · intro t
        by_cases hts : t = s
        · subst hts
          simp [hsE]
        · simp [Function.update_noteq hts, hnd.mem_erase_iff, hts, hR t]
      · intro t ht
        have hts : t ≠ s := ((hnd.mem_erase_iff).1 ht).1
        have htR : t ∈ R := ((hnd.mem_erase_iff).1 ht).2
        simpa [Function.update_noteq hts] using hlock t htR
      · simp only [hs, Server.drop]
        rw [filterMap_update_of_not_mem _ _ _ _ hsE]
        have h1 : (R.filterMap σ.lock).Perm (c :: (R.erase s).filterMap σ.lock) := by
          have := (List.perm_cons_erase hsR).filterMap σ.lock
          simpa [List.filterMap_cons, hc] using this
        have h2 : σ.server.conns.Perm (c :: ((R.erase s).filterMap σ.lock ++ base)) :=
          hperm.trans (by simpa using h1.append_right base)
        have h3 := h2.erase c
        simpa using h3
    · exact absurd hstep (by simp)

/-- Every interleaving keeps the bookkeeping invariant. -/
theorem Sys.inv_run (base : List Conn) (sched : List Step) :
    ∀ σ σ2 : Sys, Sys.Inv base σ → σ.run sched = some σ2 → Sys.Inv base σ2 := by
  induction sched with
  | nil =>
    intro σ σ2 hinv hrun
    simp only [Sys.run, Option.some.injEq] at hrun
    subst hrun
    exact hinv
  | cons st rest ih =>
    intro σ σ2 hinv hrun
    simp only [Sys.run] at hrun
    cases hst : σ.step st with
    | none => simp [hst] at hrun
    | some σ1 =>
      simp only [hst, Option.some_bind] at hrun
      exact ih σ1 σ2 (Sys.inv_step base σ σ1 st hinv hst) hrun

/-- C8. Acquire-then-release is a round trip on the control server's active-session count
(the number of open lock connections): after any interleaving of `bootVM` and `saveVM`
steps of any number of independent sessions in which every session that ran `bootVM` to
its end has also run its `saveVM`, the count is what it was before the first acquire. -/
theorem lock_round_trip (vm : VMfile) (srv : Server) (sched : List Step) (σ2 : Sys)
    (hrun : (Sys.init vm srv).run sched = some σ2)
    (hdone : ∀ s, σ2.phase s ≠ Phase.running) :
    σ2.server.count = srv.count := by
  obtain ⟨R, _, hR, _, hperm⟩ := Sys.inv_run srv.conns sched _ _ (Sys.inv_init vm srv) hrun
  have hnil : R = [] := by
    cases R with
    | nil => rfl
    | cons t R => exact absurd ((hR t).1 (List.mem_cons_self t R)) (hdone t)
  subst hnil
  simpa [Server.count] using hperm.length_eq

/-- Witness for C8: three sessions against a server that already has one connection open.
Session 0 resumes a saved VM, session 1 joins in background mode while 0 is active,
session 0 tears down (the server answers 503), session 2 fails to dial, session 1 tears
down. At the end the count is 1 again. -/
theorem lock_round_trip_witness :
    ∃ σ2 : Sys,
      (Sys.init ⟨"saved", "a1b2", "foreground", false⟩ ⟨[7], 8⟩).run
          [Step.boot 0 ⟨false, true, true, "saved", true, true, "a1b2"⟩,
           Step.boot 1 ⟨true, true, true, "running", true, true, "a1b2"⟩,
           Step.save 0 ⟨true, some 503, true⟩,
           Step.boot 2 ⟨false, true, true, "running", true, false, "a1b2"⟩,
           Step.save 1 ⟨true, some 200, true⟩] = some σ2 ∧
      (∀ s, σ2.phase s ≠ Phase.running) ∧ σ2.server.count = 1 := by
  obtain ⟨σ2, h⟩ : ∃ σ2 : Sys,
      (Sys.init ⟨"saved", "a1b2", "foreground", false⟩ ⟨[7], 8⟩).run
          [Step.boot 0 ⟨false, true, true, "saved", true, true, "a1b2"⟩,
           Step.boot 1 ⟨true, true, true, "running", true, true, "a1b2"⟩,
           Step.save 0 ⟨true, some 503, true⟩,
           Step.boot 2 ⟨false, true, true, "running", true, false, "a1b2"⟩,
           Step.save 1 ⟨true, some 200, true⟩] = some σ2 := ⟨_, rfl⟩
  have hdone : ∀ s, σ2.phase s ≠ Phase.running := by
    have h2 := h
    simp [Sys.run, Sys.step, Sys.init, bootVM, saveVM, Run.start, Run.call, Run.emit,
      Run.Dial, Run.Fatal, Run.setLock, Run.StatusIs, Run.UUIDIs, Run.ModeIs, Run.Close,
      Run.SuspendableIs, VMfile.IsMode, VMfile.IsSuspendable, VMfile.SuspendableIs,
      VMfile.StatusIs, VMfile.UUIDIs, VMfile.ModeIs] at h2
    subst h2
    intro s
    simp only [Function.update_apply]
    split_ifs <;> decide
  exact ⟨σ2, h, hdone,
    lock_round_trip ⟨"saved", "a1b2", "foreground", false⟩ ⟨[7], 8⟩ _ σ2 h hdone⟩

end Nanobox
